import Mathlib

/-!
Chatbot widget (`components/UI/Chatbot.jsx`).

A shallow embedding of the client-side logic of the executive chatbot widget:
the response formatter `formatResponse`, the send handler `handleSend`, the
drag handlers `handleMouseDown`, `handleMouseMove`, `handleMouseUp`, the
launcher's click handler and the initialiser of the persisted anchor.

JavaScript values are modelled as follows.

* A JSON value (what `response.json()` and `JSON.parse` produce) is a `Json`.
  A number is held as the text `Number::toString` gives for it.
* `undefined` is `none` in `Option Json`, the type of a property read.
* A thrown exception is the `Except.error` case, carrying a `JSError`.
* A string is a Lean `String` (a sequence of Unicode scalar values).
* Pointer coordinates, anchors and viewport extents are integers, on which the
  additions, `Math.max` and `Math.min` of the drag handlers are exact.

Each event handler runs on the state of the latest render: React has flushed
the state updates of one event before the next event is dispatched.
-/

namespace Chatbot

/-! ## JavaScript values -/

/-- A JavaScript number as `JSON.parse` produces it (a finite double or an
infinity, never `NaN`), held as the text `Number::toString` gives for it, such
as `1`, `-2.5`, `1e+21` or `Infinity`. Zero of either sign has the text `0`. -/
structure JSNumber where
  text : String
  deriving DecidableEq, Repr, Inhabited

/-- A JSON value. An object holds its own properties as the list of entries
`Object.entries` enumerates, in that order; its keys are pairwise distinct. -/
inductive Json where
  | null
  | bool (b : Bool)
  | num (n : JSNumber)
  | str (s : String)
  | arr (items : List Json)
  | obj (fields : List (String × Json))
  deriving Inhabited, Repr

/-- A thrown JavaScript exception, with the text of its `message` property. -/
inductive JSError where
  | typeError (message : String)
  | syntaxError (message : String)
  | error (message : String)
  deriving DecidableEq, Repr

/-- Property `error.message` of a caught exception. -/
def JSError.message : JSError → String
  | .typeError m => m
  | .syntaxError m => m
  | .error m => m

/-- Truthiness (`ToBoolean`) of the result of a property read: `undefined`,
`null`, `false`, `0` and the empty string are falsy, everything else (every
array and object included) is truthy. -/
def truthy : Option Json → Bool
  | none => false
  | some .null => false
  | some (.bool b) => b
  | some (.num n) => n.text != "0"
  | some (.str s) => s != ""
  | some (.arr _) => true
  | some (.obj _) => true

/-- Whether an object has an own property of the given name. -/
def hasOwnProperty (fields : List (String × Json)) (name : String) : Bool :=
  fields.any fun f => f.1 == name

/-- The exception of `OrdinaryToPrimitive` when neither `toString` nor `valueOf`
yields a primitive. -/
def notPrimitive : JSError :=
  .typeError "Cannot convert object to primitive value"

mutual
/-- String conversion (`ToString`) of a JSON value, as a template literal
applies it. A string is itself; an array is its elements joined by commas
(`Array.prototype.toString`). An object goes through `OrdinaryToPrimitive`: with
no own property `toString` the inherited method gives `[object Object]`; an own
property `toString` is a JSON value, hence not callable, and hides the inherited
method, the inherited `valueOf` returns the object itself, and a `TypeError` is
thrown. -/
def Json.toJSString : Json → Except JSError String
  | .null => .ok "null"
  | .bool true => .ok "true"
  | .bool false => .ok "false"
  | .num n => .ok n.text
  | .str s => .ok s
  | .arr items => Json.joinElems items
  | .obj fields =>
    if hasOwnProperty fields "toString" then .error notPrimitive else .ok "[object Object]"
/-- The body of `Array.prototype.join(",")`: a `null` element contributes the
empty string, any other element its string conversion; the first exception
ends the call. -/
def Json.joinElems : List Json → Except JSError String
  | [] => .ok ""
  | [x] => Json.elemString x
  | x :: y :: rest => do
    let first ← Json.elemString x
    let others ← Json.joinElems (y :: rest)
    pure (first ++ "," ++ others)
/-- One element of an array under `join`. -/
def Json.elemString : Json → Except JSError String
  | .null => .ok ""
  | .bool true => .ok "true"
  | .bool false => .ok "false"
  | .num n => .ok n.text
  | .str s => .ok s
  | .arr items => Json.joinElems items
  | .obj fields =>
    if hasOwnProperty fields "toString" then .error notPrimitive else .ok "[object Object]"
end

/-- String conversion of the result of a property read (`undefined` prints as
`undefined`). -/
def toStr : Option Json → Except JSError String
  | none => .ok "undefined"
  | some v => v.toJSString

/-- A property read `v.name` for the names `formatResponse` reads (`error`,
`reply`, `message`, `reason`, `action`): reading a property of `null` throws a
`TypeError`; an object yields its own property or `undefined`; a boolean,
number, string or array has no property of these names. -/
def getProp (v : Json) (name : String) : Except JSError (Option Json) :=
  match v with
  | .null =>
    .error (.typeError ("Cannot read properties of null (reading \x27" ++ name ++ "\x27)"))
  | .obj fields => .ok (fields.lookup name)
  | _ => .ok none

/-- The call `Object.entries(item)`: it throws a `TypeError` on `null`; a boolean
or number has no entries; a string has one entry per character and an array
one entry per element, keyed by the index; an object has its own entries. (For
a string the entries are its UTF-16 code units, which are its characters when
the string lies in the Basic Multilingual Plane.) -/
def objectEntries : Json → Except JSError (List (String × Json))
  | .null => .error (.typeError "Cannot convert undefined or null to object")
  | .bool _ => .ok []
  | .num _ => .ok []
  | .str s => .ok (s.data.enum.map fun p => (toString p.1, Json.str (String.singleton p.2)))
  | .arr items => .ok (items.enum.map fun p => (toString p.1, p.2))
  | .obj fields => .ok fields

/-- The call `key.endsWith(suffix)`. -/
def endsWith (key suffix : String) : Bool :=
  suffix.data.isSuffixOf key.data

/-- The call `key.replace(/_/g, ' ')`: every underscore becomes a space. -/
def replaceUnderscores (key : String) : String :=
  String.mk (key.data.map fun c => if c = '_' then ' ' else c)

/-- The call `parts.join(sep)` on an array of strings. -/
def joinWith (sep : String) (parts : List String) : String :=
  sep.intercalate parts

/-! ## `JSON.stringify(value, null, 2)` -/

/-- A hexadecimal digit in lower case. -/
def hexDigit (n : Nat) : Char :=
  if n < 10 then Char.ofNat (48 + n) else Char.ofNat (87 + n)

/-- One character inside a quoted JSON string (`QuoteJSONString`): the
quotation mark and the reverse solidus are escaped, a control character is
written by its short escape or as a four-digit unicode escape. -/
def quoteChar (c : Char) : String :=
  if c.toNat = 34 then "\\\""
  else if c.toNat = 92 then "\\\\"
  else if c.toNat = 8 then "\\b"
  else if c.toNat = 12 then "\\f"
  else if c.toNat = 10 then "\\n"
  else if c.toNat = 13 then "\\r"
  else if c.toNat = 9 then "\\t"
  else if c.toNat < 32 then
    "\\u00" ++ String.mk [hexDigit (c.toNat / 16), hexDigit (c.toNat % 16)]
  else String.singleton c

/-- The quoted form of a string (`QuoteJSONString`). -/
def quoteJSONString (s : String) : String :=
  "\"" ++ String.join (s.data.map quoteChar) ++ "\""

/-- The gap of `JSON.stringify(value, null, 2)`: two spaces. -/
def gap : String := "  "

/-- The text of a serialised array or object from its serialised members:
the two brackets alone when there is no member, otherwise each member on a line
of its own, indented one gap deeper than the brackets. -/
def wrapMembers (lb rb indent : String) (members : List String) : String :=
  if members.isEmpty then lb ++ rb
  else
    lb ++ "\n" ++ (indent ++ gap) ++ joinWith (",\n" ++ (indent ++ gap)) members
      ++ "\n" ++ indent ++ rb

mutual
/-- The serialisation of a value at the current indentation
(`SerializeJSONProperty`); a number that is not finite is written `null`. -/
def Json.serialize (indent : String) : Json → String
  | .null => "null"
  | .bool true => "true"
  | .bool false => "false"
  | .num n => if n.text = "Infinity" ∨ n.text = "-Infinity" then "null" else n.text
  | .str s => quoteJSONString s
  | .arr items => wrapMembers "[" "]" indent (Json.serializeItems (indent ++ gap) items)
  | .obj fields =>
    wrapMembers "\x7b" "\x7d" indent (Json.serializeFields (indent ++ gap) fields)
/-- The serialised elements of an array. -/
def Json.serializeItems (indent : String) : List Json → List String
  | [] => []
  | x :: rest => Json.serialize indent x :: Json.serializeItems indent rest
/-- The serialised members of an object, each `"key": value`. -/
def Json.serializeFields (indent : String) : List (String × Json) → List String
  | [] => []
  | (k, v) :: rest =>
    (quoteJSONString k ++ ": " ++ Json.serialize indent v)
      :: Json.serializeFields indent rest
end

/-- The call `JSON.stringify(value, null, 2)`. -/
def jsonStringify (value : Json) : String :=
  Json.serialize "" value

/-! ## `formatResponse` -/

/-- The filter of line 58: a key is shown unless it ends in `_id` or is `id`. -/
def isVisibleKey (key : String) : Bool :=
  !endsWith key "_id" && key != "id"

/-- The line of one entry (line 59): the key with its underscores replaced,
a colon and a space, and the value's string conversion, which may throw. -/
def entryLine (entry : String × Json) : Except JSError String := do
  let value ← entry.2.toJSString
  pure (replaceUnderscores entry.1 ++ ": " ++ value)

/-- The call `entries.map(callback)` of line 59: the lines of the entries in
order; the first exception ends the call. -/
def mapEntries : List (String × Json) → Except JSError (List String)
  | [] => .ok []
  | entry :: rest => do
    let line ← entryLine entry
    let lines ← mapEntries rest
    pure (line :: lines)

/-- The callback of `response.reply.map` (lines 56 to 62) at element `item`
and index `idx`. -/
def renderItem (item : Json) (idx : Nat) : Except JSError String := do
  let entries ← objectEntries item
  let lines ← mapEntries (entries.filter fun e => isVisibleKey e.1)
  let details := joinWith "\n" lines
  pure ("📌 " ++ toString (idx + 1) ++ ".\n" ++ details)

/-- The call `response.reply.map(callback)`, from index `idx` on: the callback
runs on the elements in order, and the first exception ends the call. -/
def mapItems : Nat → List Json → Except JSError (List String)
  | _, [] => .ok []
  | idx, item :: rest => do
    let block ← renderItem item idx
    let blocks ← mapItems (idx + 1) rest
    pure (block :: blocks)

/-- The comparison `response.reply === \x27forbidden\x27`. -/
def isForbidden : Option Json → Bool
  | some (.str s) => s == "forbidden"
  | _ => false

/-- The value of a property read when it is truthy, as `a || b` and
`if (a) return a` use it. -/
def whenTruthy (v : Option Json) : Option Json :=
  if truthy v then v else none

/-- The function `formatResponse` (lines 39 to 70). The result is the returned
JavaScript value: a string in every branch but those returning
`response.message`, which return that value as it is. A template literal
converts its value to a string, which may throw. -/
def formatResponse (response : Json) : Except JSError Json := do
  let error ← getProp response "error"
  if truthy error then
    let text ← toStr error
    pure (.str ("❌ Error: " ++ text))
  else
    let reply ← getProp response "reply"
    if isForbidden reply then
      let reason ← getProp response "reason"
      let text ← if truthy reason then toStr reason else pure ""
      pure (.str ("🚫 Sorry, you don\x27t have permission to do that. " ++ text))
    else
      let message ← getProp response "message"
      match whenTruthy message with
      | some m => pure m
      | none =>
        match reply with
        | some (.arr items) =>
          if items.length = 0 then
            match whenTruthy message with
            | some m => pure m
            | none => pure (.str "No records found.")
          else do
            let blocks ← mapItems 0 items
            pure (.str (joinWith "\n\n" blocks))
        | _ =>
          let action ← getProp response "action"
          if truthy action then
            let text ← toStr action
            pure (.str ("✅ Action completed: " ++ text))
          else
            pure (.str (jsonStringify response))

/-! ## The widget state -/

/-- The role of a message: `'user'` or `'ai'`. -/
inductive Role where
  | user
  | ai
  deriving DecidableEq, Repr

/-- One element of `messages`. Its text is the JavaScript value stored, a
string in every case but a non-string `response.message` returned as it is. -/
structure Message where
  role : Role
  text : Json
  deriving Repr

/-- The anchor `position`: pixel distances from the bottom and right edges. -/
structure Position where
  bottom : Int
  right : Int
  deriving DecidableEq, Repr

/-- The value `dragStart` as `handleMouseDown` sets it. -/
structure DragStart where
  x : Int
  y : Int
  startBottom : Int
  startRight : Int
  deriving DecidableEq, Repr

/-- The state of the component: the values held by its `useState` hooks. -/
structure Widget where
  isOpen : Bool
  input : String
  isLoading : Bool
  messages : List Message
  position : Position
  isDragging : Bool
  dragStart : DragStart
  deriving Repr

/-! ## `handleSend` -/

/-- White space and line terminators, the characters `String.prototype.trim`
removes. -/
def isTrimChar (c : Char) : Bool :=
  let n := c.toNat
  n = 0x09 || n = 0x0A || n = 0x0B || n = 0x0C || n = 0x0D || n = 0x20 || n = 0xA0
    || n = 0x1680 || (0x2000 ≤ n && n ≤ 0x200A) || n = 0x2028 || n = 0x2029
    || n = 0x202F || n = 0x205F || n = 0x3000 || n = 0xFEFF

/-- The call `input.trim()`. -/
def jsTrim (s : String) : String :=
  String.mk ((s.data.dropWhile isTrimChar).reverse.dropWhile isTrimChar).reverse

/-- The identity context of `useUser()`; an absent value is `none`. -/
structure UserContext where
  userId : Option String
  userRole : Option String

/-- The expression `value || fallback` on an optional string. -/
def orElse (value : Option String) (fallback : String) : String :=
  match value with
  | some s => if s = "" then fallback else s
  | none => fallback

/-- The JSON body of the request (lines 86 to 91); `team_id` is always `null`. -/
structure Request where
  user_id : String
  role : String
  message : String
  deriving DecidableEq, Repr

/-- What the two awaited calls deliver: `fetch` rejects (a network failure),
or resolves to a response with a status whose `json()` in turn yields the
parsed payload or rejects (a body that is not JSON). -/
inductive FetchOutcome where
  | rejected (e : JSError)
  | responded (status : Nat) (body : Except JSError Json)

/-- Property `response.ok`: the status is in the range 200 to 299. -/
def responseOk (status : Nat) : Bool :=
  200 ≤ status && status ≤ 299

/-- The guard of line 73: `!input.trim() || isLoading`. -/
def sendBlocked (w : Widget) : Bool :=
  jsTrim w.input == "" || w.isLoading

/-- The part of `handleSend` before the `await` (lines 73 to 92): the state it
leaves and the request it issues, or the unchanged state and no request when
the guard returns. -/
def handleSendBegin (ctx : UserContext) (w : Widget) : Widget × Option Request :=
  if sendBlocked w then (w, none)
  else
    let userMessage := jsTrim w.input
    (⟨w.isOpen, "", true, w.messages ++ [⟨Role.user, Json.str userMessage⟩],
        w.position, w.isDragging, w.dragStart⟩,
      some ⟨orElse ctx.userId "guest", orElse ctx.userRole "executive", userMessage⟩)

/-- The body of the `try` block after `fetch` settles (lines 94 to 99): the
formatted response, or the exception thrown. -/
def tryBody (outcome : FetchOutcome) : Except JSError Json :=
  match outcome with
  | .rejected e => .error e
  | .responded status body =>
    if !responseOk status then
      .error (.error ("Server error: " ++ toString status))
    else do
      let data ← body
      formatResponse data

/-- The text of the assistant message: the formatted response (line 101) or
the text of the `catch` block (line 106). -/
def assistantText (outcome : FetchOutcome) : Json :=
  match tryBody outcome with
  | .ok formattedResponse => formattedResponse
  | .error error =>
    .str ("⚠️ Could not connect to the AI backend. Please make sure the server is running on port 8000.\n\nError: "
      ++ error.message)

/-- The part of `handleSend` after the `await` (lines 94 to 110), applied to the
state at that moment: one message is appended and `isLoading` is reset. -/
def handleSendResume (w : Widget) (outcome : FetchOutcome) : Widget :=
  ⟨w.isOpen, w.input, false, w.messages ++ [⟨Role.ai, assistantText outcome⟩],
    w.position, w.isDragging, w.dragStart⟩

/-- The function `handleSend` (lines 72 to 111) run to completion, `fetch`
giving the outcome of the request issued. -/
def handleSend (ctx : UserContext) (fetch : Request → FetchOutcome) (w : Widget) :
    Widget × Option Request :=
  match handleSendBegin ctx w with
  | (w1, none) => (w1, none)
  | (w1, some request) => (handleSendResume w1 (fetch request), some request)

/-! ## The persisted anchor -/

/-- The default anchor `\x7b bottom: 30, right: 30 \x7d` of line 20. -/
def defaultPosition : Json :=
  .obj [("bottom", .num ⟨"30"⟩), ("right", .num ⟨"30"⟩)]

/-- The initialiser of `position` (lines 18 to 21). `saved` is what
`localStorage.getItem` returns, `none` for `null`; `jsonParse` is `JSON.parse`,
which returns the parsed value or throws a `SyntaxError`. -/
def initialPosition (jsonParse : String → Except JSError Json) (saved : Option String) :
    Except JSError Json :=
  match saved with
  | some s => if s = "" then .ok defaultPosition else jsonParse s
  | none => .ok defaultPosition

/-! ## The drag handlers -/

/-- Where in the rendered tree a pointer-down lands, among the elements that
carry `onMouseDown` (lines 193 to 236 and 385 to 422): the header outside its
close button, the close button of the header, the launcher button. -/
inductive Target where
  | headerSurface
  | headerCloseButton
  | launcher
  deriving DecidableEq, Repr

/-- Whether `e.target.closest("button")` finds an element. -/
def Target.closestButton : Target → Bool
  | .headerSurface => false
  | .headerCloseButton => true
  | .launcher => true

/-- Whether `e.target.closest(".drag-handle")` finds an element. -/
def Target.closestDragHandle : Target → Bool
  | .headerSurface => true
  | .headerCloseButton => true
  | .launcher => false

/-- Whether `e.target.closest(".chatbot-fab")` finds an element. -/
def Target.closestFab : Target → Bool
  | .headerSurface => false
  | .headerCloseButton => false
  | .launcher => true

/-- A mouse event: the pointer coordinates and the target. -/
structure MouseEvent where
  clientX : Int
  clientY : Int
  target : Target
  deriving DecidableEq, Repr

/-- The viewport metrics `window.innerWidth` and `window.innerHeight`. -/
structure Viewport where
  innerWidth : Int
  innerHeight : Int
  deriving DecidableEq, Repr

/-- The function `handleMouseDown` (lines 114 to 129): the next state and
whether `e.preventDefault()` was called. -/
def handleMouseDown (w : Widget) (e : MouseEvent) : Widget × Bool :=
  let isButton := e.target.closestButton
  let isDragHandle := e.target.closestDragHandle
  let isFAB := e.target.closestFab
  if isButton && !isDragHandle && !isFAB then (w, false)
  else
    (⟨w.isOpen, w.input, w.isLoading, w.messages, w.position, true,
        ⟨e.clientX, e.clientY, w.position.bottom, w.position.right⟩⟩, true)

/-- The function `handleMouseMove` (lines 132 to 148) at pointer position
`(clientX, clientY)`. -/
def handleMouseMove (vp : Viewport) (w : Widget) (clientX clientY : Int) : Widget :=
  if !w.isDragging then w
  else
    let deltaX := w.dragStart.x - clientX
    let deltaY := w.dragStart.y - clientY
    let newRight := w.dragStart.startRight + deltaX
    let newBottom := w.dragStart.startBottom + deltaY
    let maxRight := vp.innerWidth - 100
    let maxBottom := vp.innerHeight - 100
    ⟨w.isOpen, w.input, w.isLoading, w.messages,
      ⟨max 10 (min maxBottom newBottom), max 10 (min maxRight newRight)⟩,
      w.isDragging, w.dragStart⟩

/-- The function `handleMouseUp` (lines 150 to 152). -/
def handleMouseUp (w : Widget) : Widget :=
  ⟨w.isOpen, w.input, w.isLoading, w.messages, w.position, false, w.dragStart⟩

/-- The `onClick` handler of the launcher button (lines 388 to 392). -/
def launcherClick (w : Widget) : Widget :=
  if !w.isDragging then
    ⟨!w.isOpen, w.input, w.isLoading, w.messages, w.position, w.isDragging, w.dragStart⟩
  else w

/-- A pointer event reaching the widget. -/
inductive Event where
  | mouseDown (e : MouseEvent)
  | mouseMove (clientX clientY : Int)
  | mouseUp
  | click
  deriving DecidableEq, Repr

/-- One event dispatched on the state. The document listeners for `mousemove`
and `mouseup` are registered only while `isDragging` holds (lines 154 to 161);
`click` is the click on the launcher button. -/
def step (vp : Viewport) (w : Widget) : Event → Widget
  | .mouseDown e => (handleMouseDown w e).1
  | .mouseMove clientX clientY =>
    if w.isDragging then handleMouseMove vp w clientX clientY else w
  | .mouseUp => if w.isDragging then handleMouseUp w else w
  | .click => launcherClick w

/-- A sequence of events dispatched in order. -/
def run (vp : Viewport) (w : Widget) (events : List Event) : Widget :=
  events.foldl (step vp) w

/-! ## The list rendering as the specification words it -/

/-- An internal identifier, in the words of the specification: a key equal to
`id` or ending in `_id`. -/
def isIdentifierKey (key : String) : Prop :=
  key = "id" ∨ "_id".data <:+ key.data

instance (key : String) : Decidable (isIdentifierKey key) := by
  unfold isIdentifierKey
  infer_instance

/-- A key with every underscore replaced by a space, character by character. -/
def spacedKey : List Char → List Char
  | [] => []
  | c :: rest => (if c = '_' then ' ' else c) :: spacedKey rest

mutual
/-- Whether a value has a text: every string, number, boolean and `null` has
one; an object has one unless it carries an own property `toString`; an array
has one when each of its elements has. -/
def Json.printable : Json → Bool
  | .null => true
  | .bool _ => true
  | .num _ => true
  | .str _ => true
  | .arr items => Json.printableItems items
  | .obj fields => !(fields.map fun f => f.1).contains "toString"
/-- Whether every element of an array has a text. -/
def Json.printableItems : List Json → Bool
  | [] => true
  | x :: rest => x.printable && Json.printableItems rest
end

mutual
/-- Whether no object inside a value, at any depth, carries an own property
`toString`. -/
def Json.plain : Json → Bool
  | .null => true
  | .bool _ => true
  | .num _ => true
  | .str _ => true
  | .arr items => Json.plainItems items
  | .obj fields => !(fields.map fun f => f.1).contains "toString" && Json.plainFields fields
/-- Whether every element of an array is plain. -/
def Json.plainItems : List Json → Bool
  | [] => true
  | x :: rest => x.plain && Json.plainItems rest
/-- Whether the value of every field of an object is plain. -/
def Json.plainFields : List (String × Json) → Bool
  | [] => true
  | (_, v) :: rest => v.plain && Json.plainFields rest
end

mutual
/-- The text of a value that has one, as it is shown to the user: a string is
itself, a number its decimal text, a boolean `true` or `false`, `null` the word
`null`, an object `[object Object]`, an array the texts of its elements
separated by commas. -/
def Json.valueText : Json → String
  | .null => "null"
  | .bool b => if b then "true" else "false"
  | .num n => n.text
  | .str s => s
  | .arr items => ",".intercalate (Json.itemTexts items)
  | .obj _ => "[object Object]"
/-- The texts of the elements of an array. -/
def Json.itemTexts : List Json → List String
  | [] => []
  | x :: rest => Json.itemText x :: Json.itemTexts rest
/-- The text of one element of an array: that of the value, but nothing for
`null`. -/
def Json.itemText : Json → String
  | .null => ""
  | .bool b => if b then "true" else "false"
  | .num n => n.text
  | .str s => s
  | .arr items => ",".intercalate (Json.itemTexts items)
  | .obj _ => "[object Object]"
end

/-- The lines of one record, in the words of the specification: one line
`<key with underscores replaced by spaces>: <value>` for each field in field
order, the internal identifiers left out. -/
def recordLines : List (String × Json) → List String
  | [] => []
  | (key, value) :: rest =>
    if isIdentifierKey key then recordLines rest
    else (String.mk (spacedKey key.data) ++ ": " ++ value.valueText) :: recordLines rest

/-- The block of the record numbered `i`, in the words of the specification:
the header line and then the lines of the record. -/
def recordBlock (i : Nat) (record : List (String × Json)) : String :=
  "📌 " ++ toString i ++ ".\n" ++ joinWith "\n" (recordLines record)

/-- The blocks of the records, the first one numbered `first + 1`. -/
def recordBlocksFrom : Nat → List (List (String × Json)) → List String
  | _, [] => []
  | first, record :: rest => recordBlock (first + 1) record :: recordBlocksFrom (first + 1) rest

/-! ## Auxiliary lemmas -/

theorem ok_bind {ε α β : Type} (a : α) (f : α → Except ε β) :
    (Except.ok a >>= f) = f a := rfl

theorem error_bind {ε α β : Type} (e : ε) (f : α → Except ε β) :
    (Except.error e >>= f) = Except.error e := rfl

theorem pure_eq_ok {ε α : Type} (a : α) : (pure a : Except ε α) = Except.ok a := rfl

theorem map_ok {ε α β : Type} (a : α) (f : α → β) :
    (f <$> (Except.ok a : Except ε α)) = Except.ok (f a) := rfl

theorem intercalate_go_append (sep x y : String) (l : List String) :
    String.intercalate.go (x ++ y) sep l = x ++ String.intercalate.go y sep l := by
  induction l generalizing y with
  | nil => rfl
  | cons c rest ih =>
    simp only [String.intercalate.go]
    rw [String.append_assoc, String.append_assoc, ← String.append_assoc y sep c, ih]

theorem joinWith_cons_cons (sep a b : String) (rest : List String) :
    joinWith sep (a :: b :: rest) = a ++ sep ++ joinWith sep (b :: rest) := by
  simp only [joinWith, String.intercalate, String.intercalate.go]
  rw [intercalate_go_append]

theorem replaceUnderscores_eq (key : String) :
    replaceUnderscores key = String.mk (spacedKey key.data) := by
  unfold replaceUnderscores
  congr 1
  induction key.data with
  | nil => rfl
  | cons c rest ih => simp [spacedKey, ih]

theorem hasOwnProperty_eq (fields : List (String × Json)) (name : String) :
    hasOwnProperty fields name = (fields.map fun f => f.1).contains name := by
  induction fields with
  | nil => rfl
  | cons f rest ih =>
    simp only [hasOwnProperty, List.any_cons, List.map_cons, List.contains_cons] at ih ⊢
    rw [ih]
    congr 1
    exact Bool.eq_iff_iff.mpr ⟨fun h => by simpa using (beq_iff_eq.mp h).symm,
      fun h => by simpa using (beq_iff_eq.mp h).symm⟩

theorem printable_obj (fields : List (String × Json)) (h : (Json.obj fields).printable = true) :
    hasOwnProperty fields "toString" = false := by
  rw [hasOwnProperty_eq]
  simpa [Json.printable] using h

mutual
theorem toJSString_of_printable :
    (v : Json) → v.printable = true → v.toJSString = .ok v.valueText
  | .null, _ => by simp [Json.toJSString, Json.valueText]
  | .bool true, _ => by simp [Json.toJSString, Json.valueText]
  | .bool false, _ => by simp [Json.toJSString, Json.valueText]
  | .num _, _ => by simp [Json.toJSString, Json.valueText]
  | .str _, _ => by simp [Json.toJSString, Json.valueText]
  | .arr items, h => by
    rw [Json.toJSString, Json.valueText]
    exact joinElems_of_printable items (by simpa [Json.printable] using h)
  | .obj fields, h => by
    simp [Json.toJSString, printable_obj fields h, Json.valueText]
theorem joinElems_of_printable :
    (items : List Json) → Json.printableItems items = true →
      Json.joinElems items = .ok (joinWith "," (Json.itemTexts items))
  | [], _ => by simp [Json.joinElems, Json.itemTexts, joinWith, String.intercalate]
  | [x], h => by
    have hx : x.printable = true := by simpa [Json.printableItems] using h
    rw [Json.joinElems, elemString_of_printable x hx]
    simp [Json.itemTexts, joinWith, String.intercalate, String.intercalate.go]
  | x :: y :: rest, h => by
    have hx : x.printable = true ∧ Json.printableItems (y :: rest) = true := by
      simpa [Json.printableItems] using h
    rw [Json.joinElems, elemString_of_printable x hx.1, joinElems_of_printable (y :: rest) hx.2]
    simp only [Json.itemTexts, joinWith_cons_cons, ok_bind, pure_eq_ok]
theorem elemString_of_printable :
    (x : Json) → x.printable = true → Json.elemString x = .ok (Json.itemText x)
  | .null, _ => by simp [Json.elemString, Json.itemText]
  | .bool true, _ => by simp [Json.elemString, Json.itemText]
  | .bool false, _ => by simp [Json.elemString, Json.itemText]
  | .num _, _ => by simp [Json.elemString, Json.itemText]
  | .str _, _ => by simp [Json.elemString, Json.itemText]
  | .arr items, h => by
    rw [Json.elemString, Json.itemText]
    exact joinElems_of_printable items (by simpa [Json.printable] using h)
  | .obj fields, h => by
    simp [Json.elemString, printable_obj fields h, Json.itemText]
end

theorem isVisibleKey_iff (key : String) :
    isVisibleKey key = true ↔ ¬ isIdentifierKey key := by
  simp only [isVisibleKey, endsWith, isIdentifierKey, Bool.and_eq_true, Bool.not_eq_true',
    bne_iff_ne, ne_eq, not_or]
  rw [← Bool.not_eq_true, List.isSuffixOf_iff_suffix]
  exact And.comm


theorem mapEntries_visible (entries : List (String × Json))
    (h : ∀ f ∈ entries, ¬ isIdentifierKey f.1 → f.2.printable = true) :
    mapEntries (entries.filter fun e => isVisibleKey e.1) = .ok (recordLines entries) := by
  induction entries with
  | nil => rfl
  | cons e rest ih =>
    obtain ⟨key, value⟩ := e
    have ihr := ih fun f hf => h f (List.mem_cons_of_mem _ hf)
    by_cases hk : isIdentifierKey key
    · have hv : isVisibleKey key = false := by
        rw [← Bool.not_eq_true, isVisibleKey_iff]
        exact not_not.mpr hk
      simp [recordLines, hk, List.filter_cons, hv, ihr]
    · have hv : isVisibleKey key = true := (isVisibleKey_iff key).mpr hk
      have hp : value.printable = true := h (key, value) (List.mem_cons_self _ _) hk
      simp [recordLines, hk, List.filter_cons, hv, ihr, mapEntries, entryLine,
        toJSString_of_printable value hp, ok_bind, pure_eq_ok, replaceUnderscores_eq]

theorem renderItem_obj (record : List (String × Json)) (idx : Nat)
    (h : ∀ f ∈ record, ¬ isIdentifierKey f.1 → f.2.printable = true) :
    renderItem (.obj record) idx = .ok (recordBlock (idx + 1) record) := by
  simp [renderItem, objectEntries, ok_bind, pure_eq_ok, recordBlock, mapEntries_visible record h]

theorem mapItems_records (records : List (List (String × Json))) (first : Nat)
    (h : ∀ record ∈ records, ∀ f ∈ record, ¬ isIdentifierKey f.1 → f.2.printable = true) :
    mapItems first (records.map Json.obj) = .ok (recordBlocksFrom first records) := by
  induction records generalizing first with
  | nil => rfl
  | cons record rest ih =>
    have h1 := renderItem_obj record first (h record (List.mem_cons_self _ _))
    have h2 := ih (first + 1) fun r hr => h r (List.mem_cons_of_mem _ hr)
    simp [mapItems, h1, h2, ok_bind, pure_eq_ok, recordBlocksFrom]

theorem recordBlocksFrom_length (records : List (List (String × Json))) (first : Nat) :
    (recordBlocksFrom first records).length = records.length := by
  induction records generalizing first with
  | nil => rfl
  | cons record rest ih => simp [recordBlocksFrom, ih]

theorem recordBlocksFrom_getElem? (records : List (List (String × Json))) (first i : Nat)
    (hi : i < records.length) :
    (recordBlocksFrom first records)[i]?
      = some (recordBlock (first + i + 1) (records.get ⟨i, hi⟩)) := by
  induction records generalizing first i with
  | nil => exact absurd hi (Nat.not_lt_zero _)
  | cons record rest ih =>
    cases i with
    | zero => simp [recordBlocksFrom]
    | succ j =>
      have hj : j < rest.length := Nat.lt_of_succ_lt_succ hi
      simp only [recordBlocksFrom, List.getElem?_cons_succ, List.get_cons_succ]
      rw [ih (first + 1) j hj]
      have e : first + 1 + j + 1 = first + (j + 1) + 1 := by omega
      rw [e]


theorem dropWhile_all_iff {α : Type} (p : α → Bool) (l : List α) :
    (∀ x ∈ l.dropWhile p, p x = true) ↔ ∀ x ∈ l, p x = true := by
  induction l with
  | nil => simp
  | cons a t ih =>
    by_cases h : p a = true
    · simp [List.dropWhile_cons_of_pos h, ih, h]
    · simp [List.dropWhile_cons_of_neg h]

/-- The trimmed input is empty exactly when every character of the input is
white space (the empty input included). -/
theorem jsTrim_eq_empty_iff (s : String) :
    jsTrim s = "" ↔ ∀ c ∈ s.data, isTrimChar c = true := by
  unfold jsTrim
  rw [String.ext_iff]
  show ((s.data.dropWhile isTrimChar).reverse.dropWhile isTrimChar).reverse = [] ↔ _
  rw [List.reverse_eq_nil_iff, List.dropWhile_eq_nil_iff]
  simp only [List.mem_reverse]
  exact dropWhile_all_iff _ _

theorem sendBlocked_iff (w : Widget) :
    sendBlocked w = true ↔ (∀ c ∈ w.input.data, isTrimChar c = true) ∨ w.isLoading = true := by
  simp only [sendBlocked, Bool.or_eq_true, beq_iff_eq, jsTrim_eq_empty_iff]


theorem plainItems_iff (items : List Json) :
    Json.plainItems items = true ↔ ∀ x ∈ items, x.plain = true := by
  induction items with
  | nil => simp [Json.plainItems]
  | cons x rest ih => simp [Json.plainItems, ih]

theorem plainFields_iff (fields : List (String × Json)) :
    Json.plainFields fields = true ↔ ∀ f ∈ fields, f.2.plain = true := by
  induction fields with
  | nil => simp [Json.plainFields]
  | cons f rest ih =>
    obtain ⟨k, v⟩ := f
    simp [Json.plainFields, ih]

mutual
theorem printable_of_plain : (v : Json) → v.plain = true → v.printable = true
  | .null, _ => by simp [Json.printable]
  | .bool _, _ => by simp [Json.printable]
  | .num _, _ => by simp [Json.printable]
  | .str _, _ => by simp [Json.printable]
  | .arr items, h => by
    rw [Json.printable]
    exact printableItems_of_plain items (by simpa [Json.plain] using h)
  | .obj fields, h => by
    have h2 : (!(fields.map fun f => f.1).contains "toString") = true := by
      rw [Json.plain, Bool.and_eq_true] at h
      exact h.1
    rw [Json.printable]
    exact h2
theorem printableItems_of_plain :
    (items : List Json) → Json.plainItems items = true → Json.printableItems items = true
  | [], _ => by simp [Json.printableItems]
  | x :: rest, h => by
    have hx : x.plain = true ∧ Json.plainItems rest = true := by
      simpa [Json.plainItems] using h
    simp [Json.printableItems, printable_of_plain x hx.1, printableItems_of_plain rest hx.2]
end

theorem mem_of_lookup {α : Type} (fields : List (String × α)) (name : String) (v : α)
    (h : fields.lookup name = some v) : (name, v) ∈ fields := by
  induction fields with
  | nil => simp at h
  | cons f rest ih =>
    obtain ⟨k, w⟩ := f
    by_cases hk : name = k
    · subst hk
      simp [List.lookup] at h
      simp [h]
    · have hb : (name == k) = false := by simpa using hk
      simp [List.lookup, hb] at h
      exact List.mem_cons_of_mem _ (ih h)

theorem toStr_ok_of_plain (response : Json) (hplain : response.plain = true) (name : String)
    (r : Option Json) (hr : getProp response name = .ok r) : ∃ t, toStr r = .ok t := by
  cases r with
  | none => exact ⟨_, rfl⟩
  | some v =>
    have hv : v.plain = true := by
      cases response with
      | obj fields =>
        have hm : (name, v) ∈ fields := by
          apply mem_of_lookup
          simpa [getProp] using hr
        have hf : Json.plainFields fields = true := by
          rw [Json.plain, Bool.and_eq_true] at hplain
          exact hplain.2
        exact (plainFields_iff fields).mp hf _ hm
      | null => simp [getProp] at hr
      | bool b => simp [getProp] at hr
      | num n => simp [getProp] at hr
      | str s => simp [getProp] at hr
      | arr items => simp [getProp] at hr
    exact ⟨_, toJSString_of_printable v (printable_of_plain v hv)⟩

theorem mapEntries_ok (entries : List (String × Json))
    (h : ∀ e ∈ entries, e.2.printable = true) : ∃ lines, mapEntries entries = .ok lines := by
  induction entries with
  | nil => exact ⟨[], rfl⟩
  | cons e rest ih =>
    obtain ⟨lines, hl⟩ := ih fun f hf => h f (List.mem_cons_of_mem _ hf)
    have he := toJSString_of_printable e.2 (h e (List.mem_cons_self _ _))
    refine ⟨(replaceUnderscores e.1 ++ ": " ++ e.2.valueText) :: lines, ?_⟩
    simp [mapEntries, entryLine, he, hl, ok_bind, pure_eq_ok]

theorem renderItem_ok_of_plain (item : Json) (idx : Nat) (hnull : item ≠ Json.null)
    (hplain : item.plain = true) : ∃ block, renderItem item idx = .ok block := by
  have key : ∀ entries : List (String × Json), objectEntries item = .ok entries →
      (∀ e ∈ entries, e.2.printable = true) → ∃ block, renderItem item idx = .ok block := by
    intro entries he hp
    obtain ⟨lines, hl⟩ := mapEntries_ok (entries.filter fun e => isVisibleKey e.1)
      fun e hm => hp e (List.mem_of_mem_filter hm)
    refine ⟨"📌 " ++ toString (idx + 1) ++ ".\n" ++ joinWith "\n" lines, ?_⟩
    simp [renderItem, he, hl, ok_bind, pure_eq_ok]
  cases item with
  | null => exact absurd rfl hnull
  | bool b => exact key [] rfl (by simp)
  | num n => exact key [] rfl (by simp)
  | str s =>
    refine key _ rfl ?_
    intro e he
    obtain ⟨p, _, rfl⟩ := List.mem_map.mp he
    simp [Json.printable]
  | arr items =>
    refine key _ rfl ?_
    intro e he
    obtain ⟨p, hp, rfl⟩ := List.mem_map.mp he
    have hx : p.2.plain = true :=
      (plainItems_iff items).mp (by simpa [Json.plain] using hplain) _
        (List.snd_mem_of_mem_enum hp)
    exact printable_of_plain _ hx
  | obj fields =>
    refine key fields rfl ?_
    intro e he
    have hf : Json.plainFields fields = true := by
      rw [Json.plain, Bool.and_eq_true] at hplain
      exact hplain.2
    exact printable_of_plain _ ((plainFields_iff fields).mp hf e he)

theorem mapItems_ok_of_plain (items : List Json) (first : Nat)
    (h : ∀ x ∈ items, x ≠ Json.null ∧ x.plain = true) :
    ∃ blocks, mapItems first items = .ok blocks := by
  induction items generalizing first with
  | nil => exact ⟨[], rfl⟩
  | cons item rest ih =>
    obtain ⟨hn, hp⟩ := h item (List.mem_cons_self _ _)
    obtain ⟨block, hb⟩ := renderItem_ok_of_plain item first hn hp
    obtain ⟨blocks, hbs⟩ := ih (first + 1) fun x hx => h x (List.mem_cons_of_mem _ hx)
    exact ⟨block :: blocks, by simp [mapItems, hb, hbs, ok_bind, pure_eq_ok]⟩

/-! ## The response formatter -/

/-- Away from `null` and from own `toString` properties the formatter returns:
for every payload other than `null` in which no object, at any depth, carries an
own property `toString`, and whose `reply`, when it is a list, has no `null`
element, `formatResponse` returns a value and throws nothing. -/
theorem formatResponse_ok_of_plain (response : Json) (hnull : response ≠ Json.null)
    (hplain : response.plain = true)
    (hitems : ∀ items, getProp response "reply" = .ok (some (.arr items)) →
      ∀ x ∈ items, x ≠ Json.null) :
    ∃ v, formatResponse response = .ok v := by
  have hread : ∀ name, ∃ r, getProp response name = .ok r := by
    intro name
    cases response with
    | null => exact absurd rfl hnull
    | bool b => exact ⟨_, rfl⟩
    | num n => exact ⟨_, rfl⟩
    | str s => exact ⟨_, rfl⟩
    | arr items => exact ⟨_, rfl⟩
    | obj fields => exact ⟨_, rfl⟩
  obtain ⟨error, herror⟩ := hread "error"
  obtain ⟨reply, hreply⟩ := hread "reply"
  obtain ⟨reason, hreason⟩ := hread "reason"
  obtain ⟨message, hmessage⟩ := hread "message"
  obtain ⟨action, haction⟩ := hread "action"
  obtain ⟨terror, hterror⟩ := toStr_ok_of_plain response hplain "error" error herror
  obtain ⟨treason, htreason⟩ := toStr_ok_of_plain response hplain "reason" reason hreason
  obtain ⟨taction, htaction⟩ := toStr_ok_of_plain response hplain "action" action haction
  simp only [formatResponse, herror, hreply, hreason, hmessage, haction, hterror, htreason,
    htaction, ok_bind, pure_eq_ok]
  split
  · exact ⟨_, rfl⟩
  · split
    · split <;> exact ⟨_, rfl⟩
    · split
      · exact ⟨_, rfl⟩
      · split
        · rename_i _ items _
          split
          · split <;> exact ⟨_, rfl⟩
          · have hall : ∀ x ∈ items, x ≠ Json.null ∧ x.plain = true := by
              intro x hx
              refine ⟨hitems items hreply x hx, ?_⟩
              cases response with
              | obj fields =>
                have hm : ("reply", Json.arr items) ∈ fields := by
                  apply mem_of_lookup
                  simpa [getProp] using hreply
                have hf : Json.plainFields fields = true := by
                  rw [Json.plain, Bool.and_eq_true] at hplain
                  exact hplain.2
                have ha := (plainFields_iff fields).mp hf _ hm
                exact (plainItems_iff items).mp (by simpa [Json.plain] using ha) x hx
              | null => simp [getProp] at hreply
              | bool b => simp [getProp] at hreply
              | num n => simp [getProp] at hreply
              | str s => simp [getProp] at hreply
              | arr l => simp [getProp] at hreply
            obtain ⟨blocks, hb⟩ := mapItems_ok_of_plain items 0 hall
            exact ⟨_, by rw [hb]; rfl⟩
        · split <;> exact ⟨_, rfl⟩


/-- C1, at the inputs where it fails. On the payload `null` the first property
read of `formatResponse` throws a `TypeError`; on `\x7b reply: [null] \x7d` the call
`Object.entries(null)` throws a `TypeError`; on `\x7b message: 42 \x7d` the returned
value is the number 42 and not a string. -/
theorem formatResponse_fails_on_null :
    formatResponse Json.null
        = .error (.typeError "Cannot read properties of null (reading \x27error\x27)")
      ∧ formatResponse (.obj [("reply", .arr [Json.null])])
        = .error (.typeError "Cannot convert undefined or null to object")
      ∧ formatResponse (.obj [("message", .num ⟨"42"⟩)]) = .ok (.num ⟨"42"⟩) :=
  ⟨rfl, rfl, rfl⟩

/-- C2, as stated, fails. The payload `\x7b error: "", action: "y" \x7d` carries the
field `error`, and `formatResponse` returns the action-completed string. The
payload `\x7b error: \x7b toString: 1 \x7d, action: "y" \x7d` carries an `error` that has no
string conversion, and `formatResponse` throws a `TypeError`. -/
theorem formatResponse_empty_error_skipped :
    formatResponse (.obj [("error", .str ""), ("action", .str "y")])
        = .ok (.str "✅ Action completed: y")
      ∧ formatResponse
          (.obj [("error", .obj [("toString", .num ⟨"1"⟩)]), ("action", .str "y")])
        = .error (.typeError "Cannot convert object to primitive value") :=
  ⟨rfl, rfl⟩

/-- C2, amended. For every object payload whose field `error` is truthy (present
and not `null`, `false`, `0` or the empty string) and has a text (it is not an
object with an own property `toString`, nor an array holding one), whatever
other fields the payload carries, `formatResponse` returns the error-flagged
string: the prefix followed by the text of `error`, which for a string is the
string itself, and nothing from a later step. -/
theorem formatResponse_error_first (fields : List (String × Json)) (e : Json)
    (herror : fields.lookup "error" = some e)
    (htruthy : truthy (some e) = true)
    (htext : e.printable = true) :
    formatResponse (.obj fields) = .ok (.str ("❌ Error: " ++ e.valueText)) := by
  simp [formatResponse, getProp, herror, htruthy, toStr, toJSString_of_printable e htext,
    ok_bind, pure_eq_ok]

/-- C2 at the payload `\x7b error: "x", action: "y" \x7d`: the output is the error string
and not the action-completed string. -/
theorem formatResponse_error_first_witness :
    formatResponse (.obj [("error", .str "x"), ("action", .str "y")])
      = .ok (.str "❌ Error: x") :=
  formatResponse_error_first [("error", .str "x"), ("action", .str "y")] (.str "x")
    rfl rfl rfl

/-- C3, as stated, fails: on the payload `\x7b message: "" \x7d` (message present, no
error, no reply) `formatResponse` returns the indented JSON text of the payload,
which is not the empty message. -/
theorem formatResponse_empty_message_skipped :
    formatResponse (.obj [("message", .str "")])
        = .ok (.str "\x7b\n  \"message\": \"\"\n\x7d")
      ∧ formatResponse (.obj [("message", .str "")]) ≠ .ok (.str "") := by
  refine ⟨rfl, fun h => ?_⟩
  have h2 : formatResponse (.obj [("message", .str "")])
      = .ok (.str "\x7b\n  \"message\": \"\"\n\x7d") := rfl
  rw [h2] at h
  injection h with h
  injection h with h
  exact absurd h (by decide)

/-- C3, amended. For every object payload whose `message` is truthy (a non-empty
string, or any other truthy value), whose `error` is absent or falsy and whose
`reply` is not the string `forbidden`, `formatResponse` returns exactly the value
of `message`, whatever `reply` and `action` are. -/
theorem formatResponse_message_verbatim (fields : List (String × Json)) (m : Json)
    (hmessage : fields.lookup "message" = some m)
    (htruthy : truthy (some m) = true)
    (herror : truthy (fields.lookup "error") = false)
    (hreply : isForbidden (fields.lookup "reply") = false) :
    formatResponse (.obj fields) = .ok m := by
  simp [formatResponse, getProp, herror, hreply, hmessage, whenTruthy, htruthy, ok_bind,
    pure_eq_ok]

/-- C3 at a payload whose `reply` is a non-empty list and which carries an
`action`: the message is returned unchanged. -/
theorem formatResponse_message_verbatim_witness :
    formatResponse
        (.obj [("reply", .arr [.obj [("name", .str "Ana")]]), ("message", .str "2 leaves"),
          ("action", .str "list")])
      = .ok (.str "2 leaves") :=
  formatResponse_message_verbatim
    [("reply", .arr [.obj [("name", .str "Ana")]]), ("message", .str "2 leaves"),
      ("action", .str "list")]
    (.str "2 leaves") rfl rfl rfl rfl


/-- C4, at the input where it fails: the payload
`\x7b reply: [\x7b name: \x7b toString: 1 \x7d \x7d] \x7d` has no error, no message and a
non-empty list of one record, and `formatResponse` returns no block: the
template literal of line 59 throws a `TypeError` on the value of `name`, an
object whose own property `toString` hides the inherited method. -/
theorem formatResponse_record_value_throws :
    formatResponse
        (.obj [("reply", .arr [.obj [("name", .obj [("toString", .num ⟨"1"⟩)])]])])
      = .error (.typeError "Cannot convert object to primitive value") :=
  rfl

/-- The list rendering of C4 wherever the string conversion of line 59 is
defined. For every payload with `error` and `message` absent (or falsy) and
`reply` a non-empty list of records in which the value of every field that is
shown has a text (it is not an object with an own property `toString`, nor an
array holding one), `formatResponse` returns the blocks of the records joined
by a blank line, one block per record in list order, block `i` (counted from 1)
being the header line with the number `i` followed by the lines of the record:
one line per field, in the order `Object.entries` enumerates the fields, made of
the key with every underscore replaced by a space, a colon, a space and the text
of the value, and no line for a key that is `id` or ends in `_id`. For the
payload of the specification the output is one block headed `1.` that contains
`name: Ana` and `status: ok` and contains neither `id` nor `emp_id`. -/
theorem formatResponse_renders_records :
    (∀ (fields : List (String × Json)) (records : List (List (String × Json))),
      records ≠ [] →
      truthy (fields.lookup "error") = false →
      truthy (fields.lookup "message") = false →
      fields.lookup "reply" = some (.arr (records.map Json.obj)) →
      (∀ record ∈ records, ∀ f ∈ record, ¬ isIdentifierKey f.1 → f.2.printable = true) →
      ∃ blocks : List String,
        formatResponse (.obj fields) = .ok (.str (joinWith "\n\n" blocks))
          ∧ blocks.length = records.length
          ∧ ∀ (i : Nat) (hi : i < records.length),
              blocks[i]? = some (recordBlock (i + 1) (records.get ⟨i, hi⟩)))
    ∧ (formatResponse
          (.obj [("reply", .arr [.obj [("id", .num ⟨"1"⟩), ("emp_id", .num ⟨"2"⟩),
            ("name", .str "Ana"), ("status", .str "ok")]])])
        = .ok (.str "📌 1.\nname: Ana\nstatus: ok")
      ∧ "📌 1.\n".data <+: "📌 1.\nname: Ana\nstatus: ok".data
      ∧ "name: Ana".data <:+: "📌 1.\nname: Ana\nstatus: ok".data
      ∧ "status: ok".data <:+: "📌 1.\nname: Ana\nstatus: ok".data
      ∧ ¬ "id".data <:+: "📌 1.\nname: Ana\nstatus: ok".data
      ∧ ¬ "emp_id".data <:+: "📌 1.\nname: Ana\nstatus: ok".data) := by
  refine ⟨?_, rfl, by decide, by decide, by decide, by decide, by decide⟩
  intro fields records hne herror hmessage hreply htext
  refine ⟨recordBlocksFrom 0 records, ?_, recordBlocksFrom_length records 0, ?_⟩
  · have hlen : ¬ (records.length = 0) := fun h => hne (List.length_eq_zero.mp h)
    simp [formatResponse, getProp, herror, hmessage, hreply, whenTruthy, isForbidden,
      ok_bind, pure_eq_ok, hlen, mapItems_records records 0 htext, map_ok]
  · intro i hi
    rw [recordBlocksFrom_getElem? records 0 i hi, Nat.zero_add]

/-- The list rendering at a payload of two records, with a number, a string, a
boolean and a list among the values: two blocks, numbered 1 and 2, each with the lines of its
fields that are not identifiers. -/
theorem formatResponse_renders_records_witness :
    ∃ blocks : List String,
      formatResponse
          (.obj [("reply", .arr [.obj [("emp_id", .num ⟨"7"⟩), ("first_name", .str "Ana"),
              ("days__left", .num ⟨"2.5"⟩)],
            .obj [("id", .num ⟨"2"⟩), ("leave_type", .str "sick"), ("approved", .bool false),
              ("dates", .arr [.str "Mon", Json.null, .num ⟨"3"⟩])]])])
        = .ok (.str (joinWith "\n\n" blocks))
      ∧ blocks.length = 2
      ∧ blocks[0]? = some "📌 1.\nfirst name: Ana\ndays  left: 2.5"
      ∧ blocks[1]? = some "📌 2.\nleave type: sick\napproved: false\ndates: Mon,,3" := by
  obtain ⟨blocks, hout, hlen, hblock⟩ := formatResponse_renders_records.1
    [("reply", .arr [.obj [("emp_id", .num ⟨"7"⟩), ("first_name", .str "Ana"),
        ("days__left", .num ⟨"2.5"⟩)],
      .obj [("id", .num ⟨"2"⟩), ("leave_type", .str "sick"), ("approved", .bool false),
        ("dates", .arr [.str "Mon", Json.null, .num ⟨"3"⟩])]])]
    [[("emp_id", .num ⟨"7"⟩), ("first_name", .str "Ana"), ("days__left", .num ⟨"2.5"⟩)],
      [("id", .num ⟨"2"⟩), ("leave_type", .str "sick"), ("approved", .bool false),
        ("dates", .arr [.str "Mon", Json.null, .num ⟨"3"⟩])]]
    (List.cons_ne_nil _ _) rfl rfl rfl (by decide)
  exact ⟨blocks, hout, hlen, hblock 0 (by decide), hblock 1 (by decide)⟩

/-! ## The drag clamp -/

/-- C5, as stated, fails: in a viewport 100 pixels wide and high, a pointer-move
while dragging sets the anchor to 10 on both axes, above the bound
`innerWidth - 100 = 0`. -/
theorem handleMouseMove_small_viewport :
    (handleMouseMove ⟨100, 100⟩ ⟨false, "", false, [], ⟨30, 30⟩, true, ⟨0, 0, 30, 30⟩⟩ 0 0).position
        = ⟨10, 10⟩
      ∧ ¬ ((handleMouseMove ⟨100, 100⟩
            ⟨false, "", false, [], ⟨30, 30⟩, true, ⟨0, 0, 30, 30⟩⟩ 0 0).position.right
          ≤ (100 : Int) - 100) := by
  decide

/-- C5, amended. For every drag start, every pointer position and every viewport
size, the anchor set by a pointer-move while dragging has `right` and `bottom`
at least 10; `right` is at most `innerWidth - 100` whenever `innerWidth` is at
least 110, and `bottom` at most `innerHeight - 100` whenever `innerHeight` is
at least 110; in a narrower or lower viewport the component is exactly 10. -/
theorem handleMouseMove_clamped (vp : Viewport) (w : Widget) (clientX clientY : Int)
    (hdrag : w.isDragging = true) :
    (10 ≤ (handleMouseMove vp w clientX clientY).position.right
        ∧ 10 ≤ (handleMouseMove vp w clientX clientY).position.bottom)
      ∧ (110 ≤ vp.innerWidth →
          (handleMouseMove vp w clientX clientY).position.right ≤ vp.innerWidth - 100)
      ∧ (110 ≤ vp.innerHeight →
          (handleMouseMove vp w clientX clientY).position.bottom ≤ vp.innerHeight - 100)
      ∧ (vp.innerWidth < 110 → (handleMouseMove vp w clientX clientY).position.right = 10)
      ∧ (vp.innerHeight < 110 → (handleMouseMove vp w clientX clientY).position.bottom = 10) := by
  simp only [handleMouseMove, hdrag, Bool.not_true, Bool.false_eq_true, if_false]
  refine ⟨⟨le_max_left _ _, le_max_left _ _⟩, ?_, ?_, ?_, ?_⟩
  · intro h
    exact max_le (by omega) (min_le_left _ _)
  · intro h
    exact max_le (by omega) (min_le_left _ _)
  · intro h
    exact max_eq_left (le_trans (min_le_left _ _) (by omega))
  · intro h
    exact max_eq_left (le_trans (min_le_left _ _) (by omega))

/-- C5 at a drag from pointer (500, 500) and anchor (30, 30) to pointer (0, 0)
in a viewport of 1280 by 720: the candidate anchor (530, 530) lies inside the
bounds and is kept, `right = 530` and `bottom = 530`. -/
theorem handleMouseMove_clamped_witness :
    (handleMouseMove ⟨1280, 720⟩
        ⟨false, "", false, [], ⟨30, 30⟩, true, ⟨500, 500, 30, 30⟩⟩ 0 0).position = ⟨530, 530⟩
      ∧ (handleMouseMove ⟨1280, 720⟩
          ⟨false, "", false, [], ⟨30, 30⟩, true, ⟨500, 500, 30, 30⟩⟩ 0 0).position.right
        ≤ (1280 : Int) - 100 :=
  ⟨by decide,
    (handleMouseMove_clamped ⟨1280, 720⟩
      ⟨false, "", false, [], ⟨30, 30⟩, true, ⟨500, 500, 30, 30⟩⟩ 0 0 rfl).2.1 (by decide)⟩

/-! ## The persisted anchor -/

/-- C6, where it fails. Whenever the stored string is not empty, the initialiser
returns exactly what `JSON.parse` gives for it: the exception when the string
does not parse, and the parsed value, whatever it is, when it does. There is no
fallback to the default anchor and no check that the value is an anchor. -/
theorem initialPosition_no_fallback (jsonParse : String → Except JSError Json) (s : String)
    (hs : s ≠ "") : initialPosition jsonParse (some s) = jsonParse s := by
  simp [initialPosition, hs]

/-- C6 at the stored string `\x7b`, which `JSON.parse` rejects: the initialiser
throws the `SyntaxError`. -/
theorem initialPosition_no_fallback_witness :
    initialPosition (fun _ => .error (.syntaxError "Unexpected end of JSON input")) (some "\x7b")
      = .error (.syntaxError "Unexpected end of JSON input") :=
  initialPosition_no_fallback (fun _ => .error (.syntaxError "Unexpected end of JSON input"))
    "\x7b" (by decide)

/-- The default anchor is returned when the entry is absent or is the empty
string. -/
theorem initialPosition_default (jsonParse : String → Except JSError Json) :
    initialPosition jsonParse none = .ok defaultPosition
      ∧ initialPosition jsonParse (some "") = .ok defaultPosition :=
  ⟨rfl, rfl⟩

/-! ## `handleSend` -/

/-- C7. For every widget state whose input is empty or consists of white space
only, or whose `isLoading` flag is set, `handleSend` changes nothing and issues
no request: the state returned is the state given (the message list, the input
and the flag included), whatever the transport would answer. -/
theorem handleSend_noop (ctx : UserContext) (fetch : Request → FetchOutcome) (w : Widget)
    (h : (∀ c ∈ w.input.data, isTrimChar c = true) ∨ w.isLoading = true) :
    handleSend ctx fetch w = (w, none) := by
  have hb : sendBlocked w = true := (sendBlocked_iff w).mpr h
  simp [handleSend, handleSendBegin, hb]

/-- C7 at an input of two blanks and a tab, with one message in the list. -/
theorem handleSend_noop_witness :
    handleSend ⟨none, none⟩ (fun _ => .responded 200 (.ok (.obj [("message", .str "hi")])))
        ⟨true, "  \t", false, [⟨Role.ai, .str "Hello!"⟩], ⟨30, 30⟩, false, ⟨0, 0, 0, 0⟩⟩
      = (⟨true, "  \t", false, [⟨Role.ai, .str "Hello!"⟩], ⟨30, 30⟩, false, ⟨0, 0, 0, 0⟩⟩,
          none) :=
  handleSend_noop ⟨none, none⟩ _ _ (Or.inl (by decide))

/-- C8. For every input with a character that is not white space, sent while
`isLoading` is false, and for every outcome of the transport: before the call
`handleSend` has appended one user message (the trimmed input), cleared the
input, set `isLoading` and issued one request; at the end it has appended one
assistant message after it, so the list is the earlier list followed by the user
message and the assistant message, two messages longer, and `isLoading` is
false. -/
theorem handleSend_appends_two (ctx : UserContext) (fetch : Request → FetchOutcome)
    (w : Widget) (hinput : ¬ ∀ c ∈ w.input.data, isTrimChar c = true)
    (hidle : w.isLoading = false) :
    ∃ request : Request,
      (handleSendBegin ctx w).2 = some request
        ∧ request.message = jsTrim w.input
        ∧ (handleSendBegin ctx w).1.messages
            = w.messages ++ [⟨Role.user, .str (jsTrim w.input)⟩]
        ∧ (handleSendBegin ctx w).1.isLoading = true
        ∧ (handleSendBegin ctx w).1.input = ""
        ∧ (handleSend ctx fetch w).2 = some request
        ∧ (handleSend ctx fetch w).1.messages
            = w.messages ++ [⟨Role.user, .str (jsTrim w.input)⟩,
                ⟨Role.ai, assistantText (fetch request)⟩]
        ∧ (handleSend ctx fetch w).1.messages.length = w.messages.length + 2
        ∧ (handleSend ctx fetch w).1.isLoading = false := by
  have hb : sendBlocked w = false := by
    rw [← Bool.not_eq_true, sendBlocked_iff]
    rintro (h | h)
    · exact hinput h
    · rw [hidle] at h
      exact Bool.false_ne_true h
  refine ⟨⟨orElse ctx.userId "guest", orElse ctx.userRole "executive", jsTrim w.input⟩, ?_⟩
  simp [handleSend, handleSendBegin, handleSendResume, hb]

/-- C8 at the input `  hi ` when the backend answers with the payload `null`: the
formatter throws, the `catch` block appends the one assistant message. -/
theorem handleSend_appends_two_witness :
    ∃ request : Request,
      (handleSendBegin ⟨none, none⟩
          ⟨true, "  hi ", false, [], ⟨30, 30⟩, false, ⟨0, 0, 0, 0⟩⟩).2 = some request
        ∧ request.message = "hi"
        ∧ (handleSend ⟨none, none⟩ (fun _ => .responded 200 (.ok Json.null))
            ⟨true, "  hi ", false, [], ⟨30, 30⟩, false, ⟨0, 0, 0, 0⟩⟩).1.messages.length = 2
        ∧ (handleSend ⟨none, none⟩ (fun _ => .responded 200 (.ok Json.null))
            ⟨true, "  hi ", false, [], ⟨30, 30⟩, false, ⟨0, 0, 0, 0⟩⟩).1.isLoading = false := by
  obtain ⟨request, h1, h2, _, _, _, _, _, h8, h9⟩ :=
    handleSend_appends_two ⟨none, none⟩ (fun _ => .responded 200 (.ok Json.null))
      ⟨true, "  hi ", false, [], ⟨30, 30⟩, false, ⟨0, 0, 0, 0⟩⟩ (by decide) rfl
  exact ⟨request, h1, h2, h8, h9⟩

/-! ## The launcher click and the drag start -/

/-- On the launcher, every sequence pointer-down, pointer-moves, pointer-up,
click flips `isOpen`, whether or not there is a move. -/
theorem launcher_sequence_always_toggles (vp : Viewport) (w : Widget) (x y : Int)
    (moves : List (Int × Int)) :
    (run vp w (Event.mouseDown ⟨x, y, Target.launcher⟩
        :: (moves.map fun p => Event.mouseMove p.1 p.2) ++ [Event.mouseUp, Event.click])).isOpen
      = !w.isOpen := by
  have hmoves : ∀ (ms : List (Int × Int)) (v : Widget), v.isDragging = true →
      (run vp v ((ms.map fun p => Event.mouseMove p.1 p.2)
        ++ [Event.mouseUp, Event.click])).isOpen = !v.isOpen := by
    intro ms
    induction ms with
    | nil =>
      intro v hv
      simp [run, step, hv, handleMouseUp, launcherClick]
    | cons m rest ih =>
      intro v hv
      have h1 : (step vp v (Event.mouseMove m.1 m.2)).isDragging = true := by
        simp [step, hv, handleMouseMove]
      have h2 : (step vp v (Event.mouseMove m.1 m.2)).isOpen = v.isOpen := by
        simp [step, hv, handleMouseMove]
      have h3 := ih (step vp v (Event.mouseMove m.1 m.2)) h1
      rw [h2] at h3
      simpa [run] using h3
  have h0 : (step vp w (Event.mouseDown ⟨x, y, Target.launcher⟩)).isDragging = true := by
    simp [step, handleMouseDown, Target.closestButton, Target.closestDragHandle,
      Target.closestFab]
  have h0b : (step vp w (Event.mouseDown ⟨x, y, Target.launcher⟩)).isOpen = w.isOpen := by
    simp [step, handleMouseDown, Target.closestButton, Target.closestDragHandle,
      Target.closestFab]
  have h := hmoves moves _ h0
  rw [h0b] at h
  simpa [run] using h

/-- C9, at the input where it fails. On the closed widget anchored at (30, 30)
in a viewport of 1280 by 720, the sequence pointer-down on the launcher at
(500, 500), pointer-move to (400, 400), pointer-up, click displaces the anchor
to (130, 130) and opens the panel: the click that ends the drag toggles it. -/
theorem launcher_drag_then_click_toggles :
    (run ⟨1280, 720⟩ ⟨false, "", false, [], ⟨30, 30⟩, false, ⟨0, 0, 0, 0⟩⟩
        [Event.mouseDown ⟨500, 500, Target.launcher⟩, Event.mouseMove 400 400, Event.mouseUp,
          Event.click]).position = ⟨130, 130⟩
      ∧ (run ⟨1280, 720⟩ ⟨false, "", false, [], ⟨30, 30⟩, false, ⟨0, 0, 0, 0⟩⟩
        [Event.mouseDown ⟨500, 500, Target.launcher⟩, Event.mouseMove 400 400, Event.mouseUp,
          Event.click]).isOpen = true := by
  decide

/-- C10, at the input where it fails. A pointer-down on the close button of the
header starts a drag like any other pointer-down on the header: `isDragging`
becomes true, the pointer and the anchor are captured as the drag origin, and
the default of the event is prevented. -/
theorem handleMouseDown_close_button_starts_drag (w : Widget) (x y : Int) :
    (handleMouseDown w ⟨x, y, Target.headerCloseButton⟩).1.isDragging = true
      ∧ (handleMouseDown w ⟨x, y, Target.headerCloseButton⟩).1.dragStart
        = ⟨x, y, w.position.bottom, w.position.right⟩
      ∧ (handleMouseDown w ⟨x, y, Target.headerCloseButton⟩).2 = true
      ∧ handleMouseDown w ⟨x, y, Target.headerCloseButton⟩
        = handleMouseDown w ⟨x, y, Target.headerSurface⟩ := by
  simp [handleMouseDown, Target.closestButton, Target.closestDragHandle, Target.closestFab]

/-! ## The direction of the drag -/

theorem run_moves_keep_drag (vp : Viewport) (moves : List (Int × Int)) (v : Widget)
    (hv : v.isDragging = true) :
    (run vp v (moves.map fun p => Event.mouseMove p.1 p.2)).isDragging = true
      ∧ (run vp v (moves.map fun p => Event.mouseMove p.1 p.2)).dragStart = v.dragStart := by
  induction moves generalizing v with
  | nil => exact ⟨hv, rfl⟩
  | cons m rest ih =>
    have h1 : (step vp v (Event.mouseMove m.1 m.2)).isDragging = true := by
      simp [step, hv, handleMouseMove]
    have h2 : (step vp v (Event.mouseMove m.1 m.2)).dragStart = v.dragStart := by
      simp [step, hv, handleMouseMove]
    obtain ⟨h3, h4⟩ := ih (step vp v (Event.mouseMove m.1 m.2)) h1
    rw [h2] at h4
    exact ⟨by simpa [run] using h3, by simpa [run] using h4⟩

theorem clamp_inside (lo hi v : Int) (h1 : lo ≤ v) (h2 : v ≤ hi) : max lo (min hi v) = v := by
  rw [min_eq_right h2, max_eq_right h1]

/-- C11, as stated, fails: from pointer (500, 500) and anchor (200, 200), in a
viewport of 1280 by 720, a pointer moved down by 50 pixels (to `clientY = 550`)
sets `bottom` to 150, inside the clamp bounds, and not to `200 + 50`. -/
theorem drag_down_decreases_bottom :
    (handleMouseMove ⟨1280, 720⟩
        ⟨false, "", false, [], ⟨200, 200⟩, true, ⟨500, 500, 200, 200⟩⟩ 500 550).position.bottom
        = 150
      ∧ (handleMouseMove ⟨1280, 720⟩
        ⟨false, "", false, [], ⟨200, 200⟩, true, ⟨500, 500, 200, 200⟩⟩ 500 550).position.bottom
        ≠ 200 + 50 := by
  decide

/-- C11, amended. After a pointer-down at `e` on a widget anchored at
`w.position`, and after any intermediate pointer-moves, a pointer-move to the
point `dLeft` pixels left of and `dDown` pixels below the origin sets the anchor
to `right = origin right + dLeft` and `bottom = origin bottom - dDown`, provided
this candidate lies inside the clamp bounds on both axes: dragging left increases
the distance from the right edge, dragging down decreases the distance from the
bottom edge (dragging up increases it), and the result depends only on the
origin captured at the pointer-down and the current pointer. -/
theorem drag_follows_pointer (vp : Viewport) (w : Widget) (e : MouseEvent)
    (moves : List (Int × Int)) (dLeft dDown : Int)
    (hr1 : 10 ≤ w.position.right + dLeft)
    (hr2 : w.position.right + dLeft ≤ vp.innerWidth - 100)
    (hb1 : 10 ≤ w.position.bottom - dDown)
    (hb2 : w.position.bottom - dDown ≤ vp.innerHeight - 100) :
    (run vp w (Event.mouseDown e :: (moves.map fun p => Event.mouseMove p.1 p.2)
        ++ [Event.mouseMove (e.clientX - dLeft) (e.clientY + dDown)])).position
      = ⟨w.position.bottom - dDown, w.position.right + dLeft⟩ := by
  have h0 : (step vp w (Event.mouseDown e)).isDragging = true := by
    cases e with
    | mk x y t => cases t <;> rfl
  have h0s : (step vp w (Event.mouseDown e)).dragStart
      = ⟨e.clientX, e.clientY, w.position.bottom, w.position.right⟩ := by
    cases e with
    | mk x y t => cases t <;> rfl
  obtain ⟨h1, h2⟩ := run_moves_keep_drag vp moves (step vp w (Event.mouseDown e)) h0
  rw [h0s] at h2
  have hrun : run vp w (Event.mouseDown e :: (moves.map fun p => Event.mouseMove p.1 p.2)
        ++ [Event.mouseMove (e.clientX - dLeft) (e.clientY + dDown)])
      = step vp (run vp (step vp w (Event.mouseDown e))
          (moves.map fun p => Event.mouseMove p.1 p.2))
          (Event.mouseMove (e.clientX - dLeft) (e.clientY + dDown)) := by
    simp [run, List.foldl_append]
  rw [hrun]
  generalize run vp (step vp w (Event.mouseDown e))
    (moves.map fun p => Event.mouseMove p.1 p.2) = v at h1 h2
  simp only [step, h1, if_true, handleMouseMove, Bool.not_true, Bool.false_eq_true, if_false, h2]
  have e1 : w.position.bottom + (e.clientY - (e.clientY + dDown)) = w.position.bottom - dDown := by
    omega
  have e2 : w.position.right + (e.clientX - (e.clientX - dLeft)) = w.position.right + dLeft := by
    omega
  rw [e1, e2, clamp_inside _ _ _ hb1 hb2, clamp_inside _ _ _ hr1 hr2]

/-- C11 at a pointer-down on the launcher at (500, 500) with the anchor at
(200, 200), an intermediate move to (10, 900), and a final move 40 pixels left
of and 50 pixels below the origin: the anchor is `right = 240`, `bottom = 150`. -/
theorem drag_follows_pointer_witness :
    (run ⟨1280, 720⟩ ⟨false, "", false, [], ⟨200, 200⟩, false, ⟨0, 0, 0, 0⟩⟩
        [Event.mouseDown ⟨500, 500, Target.launcher⟩, Event.mouseMove 10 900,
          Event.mouseMove 460 550]).position
      = ⟨150, 240⟩ :=
  drag_follows_pointer ⟨1280, 720⟩ ⟨false, "", false, [], ⟨200, 200⟩, false, ⟨0, 0, 0, 0⟩⟩
    ⟨500, 500, Target.launcher⟩ [(10, 900)] 40 50
    (by decide) (by decide) (by decide) (by decide)

end Chatbot

